import Mathlib

/-!
Shallow embedding of the interaction state machine and history engine of
`src/components/DrawingCanvas.tsx` (a React component driving a Fabric.js
canvas).

Conventions of the embedding:

* Canvas coordinates and numeric style values (JS numbers in the source) are
  modelled as rationals.  The one place the source computes a square root —
  the circle tool radius, `Math.sqrt(...) / 2` — is modelled with `Real.sqrt`,
  so circle geometry lives in `ℝ`; those few definitions are `noncomputable`,
  but no guard of the state machine ever inspects a real number, so concrete
  runs still reduce definitionally.
* The Fabric canvas object list is `List SceneObj` in render order; the
  custom `isTemp` flag of `ExtendedFabricObject` is the `isTemp : Bool` field.
* A saved history entry (`JSON.stringify({...toJSON, objects: nonTempObjects})`
  in the source) is modelled as the serialized list of non-temporary objects;
  `loadFromJSON` of such an entry replaces the canvas object list with it.
* Each React event handler body is translated as a pure function on the
  component state, reading the state current when the handler runs.  The
  `fabricCanvas` React state is `null` until the mount effect finishes and the
  component re-renders, which the `attached` flag records: `saveState`,
  `undo`, `redo` and `clearCanvas` are no-ops while `attached = false`,
  mirroring their `if (!fabricCanvas)` / `fabricCanvas?.` guards.
* Selection, panning, zoom, grid, export and window resize are delegated to
  the external engine and are not modelled.
-/

/-- A pointer position in canvas coordinates (`canvas.getPointer`). -/
structure Pt where
  x : ℚ
  y : ℚ
  deriving DecidableEq

/-- Geometry payload of a Fabric object as constructed by the source:
`Line`, `Rect`, `Circle`, `Polygon`, `FabricText`, and the `PencilBrush`
path produced by freehand drawing. -/
inductive ShapeGeom where
  | line (x1 y1 x2 y2 : ℚ)
  | rect (left top width height : ℚ)
  | circle (left top radius : ℝ)
  | polygon (points : List Pt)
  | text (left top : ℚ) (content : String) (fontSize : ℚ)
  | path (points : List Pt)

/-- Paint attributes passed to the Fabric constructors
(`stroke`, `strokeWidth`, `fill`, `opacity`). -/
structure Style where
  stroke : String
  strokeWidth : ℚ
  fill : String
  opacity : ℚ
  deriving DecidableEq

/-- One object on the Fabric canvas, together with the custom `isTemp`
preview tag of `ExtendedFabricObject`. -/
structure SceneObj where
  geom : ShapeGeom
  style : Style
  isTemp : Bool

/-- The fixed tool vocabulary of the `tools` array; the source stores the
active tool as one of the string ids
`select, brush, eraser, line, rectangle, circle, triangle, text, move`. -/
inductive Tool where
  | select | brush | eraser | line | rectangle | circle | triangle | text | move
  deriving DecidableEq

/-- The component state of `DrawingCanvas`: the `useState` hooks
(`fabricCanvas` collapsed to the `attached` flag, plus `activeTool`,
`strokeColor`, `fillColor`, `strokeWidth`, `opacity`, `hasFill`,
`isDrawing`, `startPoint`, `history`, `historyStep`) together with the
canvas object list owned by the engine. -/
structure CState where
  attached : Bool
  scene : List SceneObj
  activeTool : Tool
  strokeColor : String
  fillColor : String
  strokeWidth : ℚ
  opacity : ℚ
  hasFill : Bool
  isDrawing : Bool
  startPoint : Option Pt
  history : List (List SceneObj)
  historyStep : Int

/-- The initial values of the `useState` hooks. -/
def initState : CState :=
  { attached := false
    scene := []
    activeTool := Tool.brush
    strokeColor := "#000000"
    fillColor := "#ffffff"
    strokeWidth := 2
    opacity := 100
    hasFill := false
    isDrawing := false
    startPoint := none
    history := []
    historyStep := -1 }

/-- `objects.filter(obj => !obj.isTemp)`: the serialized committed scene
stored in a history entry by `saveState`. -/
def serializeScene (objects : List SceneObj) : List SceneObj :=
  objects.filter (fun o => !o.isTemp)

/-- Number of preview-tagged objects on the canvas. -/
def countTemp (objects : List SceneObj) : Nat :=
  objects.countP (fun o => o.isTemp)

/-- The `newHistory` local of `saveState`:
`history.slice(0, historyStep + 1)` with the serialized state pushed.
JS `slice` with a non-positive end yields `[]`, hence the `toNat`. -/
def newHistory (s : CState) : List (List SceneObj) :=
  s.history.take (s.historyStep + 1).toNat ++ [serializeScene s.scene]

/-- `saveState` (source lines 257-273): no-op without a canvas; otherwise
serialize the non-temporary objects, truncate the history to
`slice(0, historyStep + 1)`, append the new state and point the cursor at
it. -/
def saveState (s : CState) : CState :=
  if s.attached then
    { s with
      history := newHistory s
      historyStep := ((newHistory s).length : ℤ) - 1 }
  else s

/-- `undo` (source lines 275-283): only acts when `historyStep > 0`;
`fabricCanvas?.loadFromJSON` replaces the canvas contents with the
snapshot at the decremented cursor and then sets the cursor. -/
def undo (s : CState) : CState :=
  if 0 < s.historyStep then
    if s.attached then
      { s with
        scene := s.history.getD (s.historyStep - 1).toNat []
        historyStep := s.historyStep - 1 }
    else s
  else s

/-- `redo` (source lines 285-293): only acts when
`historyStep < history.length - 1`. -/
def redo (s : CState) : CState :=
  if s.historyStep < (s.history.length : ℤ) - 1 then
    if s.attached then
      { s with
        scene := s.history.getD (s.historyStep + 1).toNat []
        historyStep := s.historyStep + 1 }
    else s
  else s

/-- Enabled state of the undo button: `disabled={historyStep <= 0}`. -/
def canUndo (s : CState) : Bool := decide (0 < s.historyStep)

/-- Enabled state of the redo button:
`disabled={historyStep >= history.length - 1}`. -/
def canRedo (s : CState) : Bool := decide (s.historyStep < (s.history.length : ℤ) - 1)

/-- `handleToolClick` (source lines 295-298): sets the active tool and shows
a toast; nothing else. -/
def handleToolClick (toolId : Tool) (s : CState) : CState :=
  { s with activeTool := toolId }

/-- Color swatch / color input `onChange`. -/
def setStrokeColor (c : String) (s : CState) : CState := { s with strokeColor := c }

/-- Fill color input `onChange`. -/
def setFillColor (c : String) (s : CState) : CState := { s with fillColor := c }

/-- Size slider `onChange`. -/
def setStrokeWidth (w : ℚ) (s : CState) : CState := { s with strokeWidth := w }

/-- Opacity slider `onChange`. -/
def setOpacity (v : ℚ) (s : CState) : CState := { s with opacity := v }

/-- Fill ON/OFF toggle. -/
def setHasFill (b : Bool) (s : CState) : CState := { s with hasFill := b }

/-- `clearCanvas` (source lines 300-307): `fabricCanvas.clear()` removes all
objects, then `saveState()` commits the empty scene. -/
def clearCanvas (s : CState) : CState :=
  if s.attached then saveState { s with scene := [] } else s

/-- Whether the active tool is one of
`['line', 'rectangle', 'circle', 'triangle']` (the `mouse:down` shape check). -/
def isShapeTool : Tool → Bool
  | Tool.line | Tool.rectangle | Tool.circle | Tool.triangle => true
  | _ => false

/-- Style record built inline for `Line` previews
(`fill: ''`, `opacity: opacity / 100`). -/
def strokeOnlyStyle (s : CState) : Style :=
  { stroke := s.strokeColor
    strokeWidth := s.strokeWidth
    fill := ""
    opacity := s.opacity / 100 }

/-- Style record built inline for `Rect`, `Circle` and `Polygon` previews
(`fill: hasFill ? fillColor : 'transparent'`, `opacity: opacity / 100`). -/
def shapeFillStyle (s : CState) : Style :=
  { stroke := s.strokeColor
    strokeWidth := s.strokeWidth
    fill := if s.hasFill then s.fillColor else "transparent"
    opacity := s.opacity / 100 }

/-- The circle-tool radius:
`Math.sqrt(Math.pow(pointer.x - startPoint.x, 2) + Math.pow(pointer.y - startPoint.y, 2)) / 2`. -/
noncomputable def circleRadius (a p : Pt) : ℝ :=
  Real.sqrt (((p.x : ℝ) - (a.x : ℝ)) ^ 2 + ((p.y : ℝ) - (a.y : ℝ)) ^ 2) / 2

/-- The circle-tool geometry: `left: startPoint.x - radius`,
`top: startPoint.y - radius`, `radius: radius`. -/
noncomputable def circleGeom (a p : Pt) : ShapeGeom :=
  ShapeGeom.circle ((a.x : ℝ) - circleRadius a p) ((a.y : ℝ) - circleRadius a p)
    (circleRadius a p)

/-- Euclidean distance between two points, as the source would compute it. -/
noncomputable def euclideanDist (a p : Pt) : ℝ :=
  Real.sqrt (((p.x : ℝ) - (a.x : ℝ)) ^ 2 + ((p.y : ℝ) - (a.y : ℝ)) ^ 2)

/-- The triangle-tool vertices, with `triangleWidth = pointer.x - startPoint.x`
and `triangleHeight = pointer.y - startPoint.y` (both signed):
`[(sp.x + w/2, sp.y), (sp.x + w, sp.y + h), (sp.x, sp.y + h)]`. -/
def trianglePoints (a p : Pt) : List Pt :=
  [⟨a.x + (p.x - a.x) / 2, a.y⟩,
   ⟨a.x + (p.x - a.x), a.y + (p.y - a.y)⟩,
   ⟨a.x, a.y + (p.y - a.y)⟩]

/-- The `switch (activeTool)` of the `mouse:move` handler: the preview shape
built from the gesture anchor `a` and the current pointer `p`, tagged
`isTemp = true`; `null` for the non-shape tools. -/
noncomputable def previewShape (s : CState) (a p : Pt) : Option SceneObj :=
  match s.activeTool with
  | Tool.line =>
      some { geom := ShapeGeom.line a.x a.y p.x p.y
             style := strokeOnlyStyle s, isTemp := true }
  | Tool.rectangle =>
      some { geom := ShapeGeom.rect (min a.x p.x) (min a.y p.y)
               (|p.x - a.x|) (|p.y - a.y|)
             style := shapeFillStyle s, isTemp := true }
  | Tool.circle =>
      some { geom := circleGeom a p, style := shapeFillStyle s, isTemp := true }
  | Tool.triangle =>
      some { geom := ShapeGeom.polygon (trianglePoints a p)
             style := shapeFillStyle s, isTemp := true }
  | _ => none

/-- The unconditional preview removal at the top of `mouse:move`: fetch the
last object and remove it from the canvas when it carries `isTemp`. -/
def removeTrailingPreview (l : List SceneObj) : List SceneObj :=
  match l.getLast? with
  | some lastObject => if lastObject.isTemp then l.dropLast else l
  | none => l

/-- The `mouse:move` handler (source lines 121-191): bail out unless
`isDrawing && startPoint`; remove the trailing preview; build the new preview
from the active tool and add it when non-null. -/
noncomputable def mouseMove (p : Pt) (s : CState) : CState :=
  match s.isDrawing, s.startPoint with
  | true, some a =>
      let scene1 := removeTrailingPreview s.scene
      match previewShape s a p with
      | some sh => { s with scene := scene1 ++ [sh] }
      | none => { s with scene := scene1 }
  | _, _ => s

/-- The committed `FabricText` created on `mouse:down` with the text tool:
fixed placeholder content, font size 20, `fill` = current stroke color. -/
def textObj (p : Pt) (c : String) : SceneObj :=
  { geom := ShapeGeom.text p.x p.y "Double click to edit" 20
    style := { stroke := "", strokeWidth := 1, fill := c, opacity := 1 }
    isTemp := false }

/-- The `mouse:down` handler (source lines 101-119): shape tools arm the
gesture (`isDrawing`, `startPoint`); the text tool immediately adds a
committed text object and commits a snapshot; other tools do nothing here. -/
def mouseDown (p : Pt) (s : CState) : CState :=
  if isShapeTool s.activeTool then
    { s with isDrawing := true, startPoint := some p }
  else if s.activeTool = Tool.text then
    saveState { s with scene := s.scene ++ [textObj p s.strokeColor] }
  else s

/-- The `mouse:up` handler (source lines 193-206): when a gesture was in
progress, disarm it; if the last object is a preview, clear its `isTemp`
tag (committing it in place) and commit a snapshot. -/
def mouseUp (s : CState) : CState :=
  if s.isDrawing then
    match s.scene.getLast? with
    | some lastObject =>
        if lastObject.isTemp then
          saveState
            { s with
              isDrawing := false
              startPoint := none
              scene := s.scene.dropLast ++ [{ lastObject with isTemp := false }] }
        else { s with isDrawing := false, startPoint := none }
    | none => { s with isDrawing := false, startPoint := none }
  else s

/-- The free-drawing brush color kept in sync by the tool effect
(source lines 231-238): `activeTool === "eraser" ? "#ffffff" : strokeColor`. -/
def brushColor (s : CState) : String :=
  if s.activeTool = Tool.eraser then "#ffffff" else s.strokeColor

/-- The `path:created` completion event: Fabric fires it only while
`isDrawingMode` is on (brush or eraser); the engine has appended the
committed freehand path — painted with the brush color and width kept in
sync by the tool effect — and the handler then commits a snapshot. -/
def pathCreated (points : List Pt) (s : CState) : CState :=
  if s.activeTool = Tool.brush ∨ s.activeTool = Tool.eraser then
    saveState
      { s with
        scene := s.scene ++
          [{ geom := ShapeGeom.path points
             style := { stroke := brushColor s, strokeWidth := s.strokeWidth
                        fill := "", opacity := 1 }
             isTemp := false }] }
  else s

/-- The mount effect (source lines 80-225): the canvas is created and the
handlers are registered, then `setFabricCanvas(canvas); saveState();` runs.
The `fabricCanvas` React state is still `null` when this `saveState` call
executes (state set by `setFabricCanvas` is only visible after the next
render), so it runs against the unattached state; the attach is visible to
every later handler invocation. -/
def mountEffect (s : CState) : CState :=
  { saveState s with attached := true }

/-- The UI events whose handlers mutate the modelled state. -/
inductive Ev where
  | mouseDown (p : Pt)
  | mouseMove (p : Pt)
  | mouseUp
  | pathCreated (points : List Pt)
  | toolClick (t : Tool)
  | clearCanvas
  | undoButton
  | redoButton
  | strokeColorInput (c : String)
  | fillColorInput (c : String)
  | strokeWidthInput (w : ℚ)
  | opacityInput (v : ℚ)
  | fillToggle (b : Bool)

/-- Dispatch of one event to its handler. -/
noncomputable def applyEv (e : Ev) (s : CState) : CState :=
  match e with
  | Ev.mouseDown p => mouseDown p s
  | Ev.mouseMove p => mouseMove p s
  | Ev.mouseUp => mouseUp s
  | Ev.pathCreated pts => pathCreated pts s
  | Ev.toolClick t => handleToolClick t s
  | Ev.clearCanvas => clearCanvas s
  | Ev.undoButton => undo s
  | Ev.redoButton => redo s
  | Ev.strokeColorInput c => setStrokeColor c s
  | Ev.fillColorInput c => setFillColor c s
  | Ev.strokeWidthInput w => setStrokeWidth w s
  | Ev.opacityInput v => setOpacity v s
  | Ev.fillToggle b => setHasFill b s

/-- States of the component reachable from a fresh mount by any sequence of
UI events. -/
inductive Reachable : CState → Prop where
  | init : Reachable (mountEffect initState)
  | step (s : CState) (e : Ev) : Reachable s → Reachable (applyEv e s)

/-- A snapshot that contains no preview-tagged object. -/
def tempFree (snap : List SceneObj) : Prop := ∀ o ∈ snap, o.isTemp = false

lemma tempFree_serializeScene (l : List SceneObj) : tempFree (serializeScene l) := by
  intro o ho
  rw [serializeScene, List.mem_filter] at ho
  simpa using ho.2

lemma serializeScene_eq_self {l : List SceneObj} (h : tempFree l) :
    serializeScene l = l :=
  List.filter_eq_self.mpr fun o ho => by simp [h o ho]

lemma serializeScene_concat_temp (l : List SceneObj) {o : SceneObj}
    (h : o.isTemp = true) : serializeScene (l ++ [o]) = serializeScene l := by
  simp [serializeScene, List.filter_append, h]

lemma serializeScene_concat_committed (l : List SceneObj) {o : SceneObj}
    (h : o.isTemp = false) : serializeScene (l ++ [o]) = serializeScene l ++ [o] := by
  simp [serializeScene, List.filter_append, h]

lemma getD_concat {α : Type _} (l : List α) (a d : α) :
    (l ++ [a]).getD l.length d = a := by
  rw [List.getD_eq_getElem?_getD, List.getElem?_concat_length]
  rfl

lemma getD_mem {α : Type _} {l : List α} {n : Nat} (h : n < l.length) (d : α) :
    l.getD n d ∈ l := by
  rw [List.getD_eq_getElem?_getD, List.getElem?_eq_getElem h]
  exact List.getElem_mem h

lemma eq_nil_of_getLast?_eq_none {α : Type _} {l : List α}
    (h : l.getLast? = none) : l = [] := by
  by_contra hne
  have hs := List.getLast?_isSome.mpr hne
  rw [h] at hs
  simp at hs

lemma dropLast_concat_of_getLast? {α : Type _} {l : List α} {o : α}
    (h : l.getLast? = some o) : l.dropLast ++ [o] = l :=
  List.dropLast_append_getLast? o (Option.mem_def.mpr h)

lemma serializeScene_dropLast_of_temp {l : List SceneObj} {o : SceneObj}
    (hg : l.getLast? = some o) (ht : o.isTemp = true) :
    serializeScene l.dropLast = serializeScene l := by
  conv_rhs => rw [← dropLast_concat_of_getLast? hg]
  rw [serializeScene_concat_temp _ ht]

lemma serializeScene_removeTrailingPreview (l : List SceneObj) :
    serializeScene (removeTrailingPreview l) = serializeScene l := by
  unfold removeTrailingPreview
  cases hl : l.getLast? with
  | none => rfl
  | some o =>
      show serializeScene (if o.isTemp = true then l.dropLast else l) = serializeScene l
      by_cases ht : o.isTemp = true
      · rw [if_pos ht]
        exact serializeScene_dropLast_of_temp hl ht
      · rw [if_neg ht]

lemma saveState_scene (s : CState) : (saveState s).scene = s.scene := by
  unfold saveState
  split <;> rfl

lemma saveState_attached (s : CState) : (saveState s).attached = s.attached := by
  unfold saveState
  split <;> rfl

lemma saveState_isDrawing (s : CState) : (saveState s).isDrawing = s.isDrawing := by
  unfold saveState
  split <;> rfl

lemma saveState_activeTool (s : CState) : (saveState s).activeTool = s.activeTool := by
  unfold saveState
  split <;> rfl

lemma saveState_startPoint (s : CState) : (saveState s).startPoint = s.startPoint := by
  unfold saveState
  split <;> rfl

lemma saveState_of_attached {s : CState} (h : s.attached = true) :
    saveState s =
      { s with
        history := newHistory s
        historyStep := ((newHistory s).length : ℤ) - 1 } := by
  unfold saveState
  rw [if_pos h]

lemma undo_attached (s : CState) : (undo s).attached = s.attached := by
  unfold undo
  split
  · split <;> rfl
  · rfl

lemma mouseMove_not_drawing {s : CState} (hd : s.isDrawing = false) (p : Pt) :
    mouseMove p s = s := by
  unfold mouseMove
  rw [hd]

lemma mouseMove_no_anchor {s : CState} (hd : s.isDrawing = true)
    (hsp : s.startPoint = none) (p : Pt) : mouseMove p s = s := by
  unfold mouseMove
  rw [hd, hsp]

lemma mouseMove_drawing {s : CState} {a : Pt} (hd : s.isDrawing = true)
    (hsp : s.startPoint = some a) (p : Pt) :
    mouseMove p s =
      match previewShape s a p with
      | some sh => { s with scene := removeTrailingPreview s.scene ++ [sh] }
      | none => { s with scene := removeTrailingPreview s.scene } := by
  unfold mouseMove
  rw [hd, hsp]

lemma previewShape_isTemp {s : CState} {a p : Pt} {sh : SceneObj}
    (h : previewShape s a p = some sh) : sh.isTemp = true := by
  unfold previewShape at h
  cases htool : s.activeTool <;> rw [htool] at h <;> simp at h <;> rw [← h]

/-- The history invariant maintained by every reachable state: the canvas is
attached, the cursor is in range, and once non-negative it addresses a
snapshot equal to the serialized committed scene; every stored snapshot is
free of preview objects. -/
def HistInv (s : CState) : Prop :=
  s.attached = true ∧
  s.historyStep < (s.history.length : ℤ) ∧
  -1 ≤ s.historyStep ∧
  (0 ≤ s.historyStep → s.history.getD s.historyStep.toNat [] = serializeScene s.scene) ∧
  ∀ snap ∈ s.history, tempFree snap

lemma newHistory_length (s : CState) :
    (newHistory s).length = (s.history.take (s.historyStep + 1).toNat).length + 1 := by
  simp [newHistory]

lemma histInv_saveState {s : CState} (hatt : s.attached = true)
    (hfree : ∀ snap ∈ s.history, tempFree snap) : HistInv (saveState s) := by
  rw [saveState_of_attached hatt]
  refine ⟨hatt, ?_, ?_, ?_, ?_⟩
  · show ((newHistory s).length : ℤ) - 1 < ((newHistory s).length : ℤ)
    omega
  · show -1 ≤ ((newHistory s).length : ℤ) - 1
    omega
  · intro _
    show (newHistory s).getD (((newHistory s).length : ℤ) - 1).toNat [] = serializeScene s.scene
    have hlen := newHistory_length s
    have htn : (((newHistory s).length : ℤ) - 1).toNat =
        (s.history.take (s.historyStep + 1).toNat).length := by omega
    rw [htn, newHistory, getD_concat]
  · intro snap hsnap
    have hsnap2 : snap ∈ newHistory s := hsnap
    rw [newHistory, List.mem_append] at hsnap2
    rcases hsnap2 with h | h
    · exact hfree snap (List.take_subset _ _ h)
    · rw [List.mem_singleton] at h
      rw [h]
      exact tempFree_serializeScene s.scene

lemma histInv_mouseDown {s : CState} (h : HistInv s) (p : Pt) :
    HistInv (mouseDown p s) := by
  obtain ⟨h1, h2, h3, h4, h5⟩ := h
  unfold mouseDown
  split
  · exact ⟨h1, h2, h3, h4, h5⟩
  · split
    · exact histInv_saveState h1 h5
    · exact ⟨h1, h2, h3, h4, h5⟩

lemma histInv_mouseMove {s : CState} (h : HistInv s) (p : Pt) :
    HistInv (mouseMove p s) := by
  obtain ⟨h1, h2, h3, h4, h5⟩ := h
  cases hd : s.isDrawing with
  | false => rw [mouseMove_not_drawing hd]; exact ⟨h1, h2, h3, h4, h5⟩
  | true =>
      cases hsp : s.startPoint with
      | none => rw [mouseMove_no_anchor hd hsp]; exact ⟨h1, h2, h3, h4, h5⟩
      | some a =>
          rw [mouseMove_drawing hd hsp]
          cases hps : previewShape s a p with
          | none =>
              refine ⟨h1, h2, h3, ?_, h5⟩
              intro hstep
              show s.history.getD s.historyStep.toNat []
                  = serializeScene (removeTrailingPreview s.scene)
              rw [serializeScene_removeTrailingPreview]
              exact h4 hstep
          | some sh =>
              refine ⟨h1, h2, h3, ?_, h5⟩
              intro hstep
              show s.history.getD s.historyStep.toNat []
                  = serializeScene (removeTrailingPreview s.scene ++ [sh])
              rw [serializeScene_concat_temp _ (previewShape_isTemp hps),
                serializeScene_removeTrailingPreview]
              exact h4 hstep

lemma histInv_mouseUp {s : CState} (h : HistInv s) : HistInv (mouseUp s) := by
  obtain ⟨h1, h2, h3, h4, h5⟩ := h
  unfold mouseUp
  split
  · split
    · split
      · exact histInv_saveState h1 h5
      · exact ⟨h1, h2, h3, h4, h5⟩
    · exact ⟨h1, h2, h3, h4, h5⟩
  · exact ⟨h1, h2, h3, h4, h5⟩

lemma histInv_pathCreated {s : CState} (h : HistInv s) (points : List Pt) :
    HistInv (pathCreated points s) := by
  obtain ⟨h1, h2, h3, h4, h5⟩ := h
  unfold pathCreated
  split
  · exact histInv_saveState h1 h5
  · exact ⟨h1, h2, h3, h4, h5⟩

lemma histInv_clearCanvas {s : CState} (h : HistInv s) : HistInv (clearCanvas s) := by
  obtain ⟨h1, h2, h3, h4, h5⟩ := h
  unfold clearCanvas
  rw [if_pos h1]
  exact histInv_saveState h1 h5

lemma histInv_undo {s : CState} (h : HistInv s) : HistInv (undo s) := by
  obtain ⟨h1, h2, h3, h4, h5⟩ := h
  unfold undo
  by_cases hpos : 0 < s.historyStep
  · rw [if_pos hpos, if_pos h1]
    refine ⟨h1, ?_, ?_, ?_, h5⟩
    · show s.historyStep - 1 < (s.history.length : ℤ)
      omega
    · show -1 ≤ s.historyStep - 1
      omega
    · intro _
      show s.history.getD (s.historyStep - 1).toNat []
          = serializeScene (s.history.getD (s.historyStep - 1).toNat [])
      have hidx : (s.historyStep - 1).toNat < s.history.length := by omega
      exact (serializeScene_eq_self (h5 _ (getD_mem hidx []))).symm
  · rw [if_neg hpos]
    exact ⟨h1, h2, h3, h4, h5⟩

lemma histInv_redo {s : CState} (h : HistInv s) : HistInv (redo s) := by
  obtain ⟨h1, h2, h3, h4, h5⟩ := h
  unfold redo
  by_cases hpos : s.historyStep < (s.history.length : ℤ) - 1
  · rw [if_pos hpos, if_pos h1]
    refine ⟨h1, ?_, ?_, ?_, h5⟩
    · show s.historyStep + 1 < (s.history.length : ℤ)
      omega
    · show -1 ≤ s.historyStep + 1
      omega
    · intro _
      show s.history.getD (s.historyStep + 1).toNat []
          = serializeScene (s.history.getD (s.historyStep + 1).toNat [])
      have hidx : (s.historyStep + 1).toNat < s.history.length := by omega
      exact (serializeScene_eq_self (h5 _ (getD_mem hidx []))).symm
  · rw [if_neg hpos]
    exact ⟨h1, h2, h3, h4, h5⟩

lemma reachable_histInv {s : CState} (h : Reachable s) : HistInv s := by
  induction h with
  | init =>
      refine ⟨rfl, by decide, by decide, ?_, ?_⟩
      · intro hh
        exact absurd hh (by decide)
      · intro snap hsnap
        exact absurd hsnap (List.not_mem_nil snap)
  | step s e _ ih =>
      cases e with
      | mouseDown p => exact histInv_mouseDown ih p
      | mouseMove p => exact histInv_mouseMove ih p
      | mouseUp => exact histInv_mouseUp ih
      | pathCreated pts => exact histInv_pathCreated ih pts
      | toolClick t => exact ih
      | clearCanvas => exact histInv_clearCanvas ih
      | undoButton => exact histInv_undo ih
      | redoButton => exact histInv_redo ih
      | strokeColorInput c => exact ih
      | fillColorInput c => exact ih
      | strokeWidthInput w => exact ih
      | opacityInput v => exact ih
      | fillToggle b => exact ih

lemma undo_of_guard {s : CState} (hpos : 0 < s.historyStep)
    (hatt : s.attached = true) :
    undo s = { s with
      scene := s.history.getD (s.historyStep - 1).toNat []
      historyStep := s.historyStep - 1 } := by
  unfold undo
  rw [if_pos hpos, if_pos hatt]

lemma redo_of_guard {s : CState}
    (hg : s.historyStep < (s.history.length : ℤ) - 1) (hatt : s.attached = true) :
    redo s = { s with
      scene := s.history.getD (s.historyStep + 1).toNat []
      historyStep := s.historyStep + 1 } := by
  unfold redo
  rw [if_pos hg, if_pos hatt]

lemma canRedo_saveState {s : CState} (hatt : s.attached = true) :
    canRedo (saveState s) = false := by
  rw [saveState_of_attached hatt]
  unfold canRedo
  show decide (((newHistory s).length : ℤ) - 1 < ((newHistory s).length : ℤ) - 1) = false
  simp

/-- A small attached component state used to instantiate theorems with
hypotheses: empty canvas, one stored snapshot, cursor on it. -/
def demoState : CState :=
  { attached := true
    scene := []
    activeTool := Tool.brush
    strokeColor := "#000000"
    fillColor := "#ffffff"
    strokeWidth := 2
    opacity := 100
    hasFill := false
    isDrawing := false
    startPoint := none
    history := [[]]
    historyStep := 0 }

/-- Claim C1: for every history state and committed scene, `saveState`
serializes the committed scene with all preview-tagged objects excluded,
truncates the snapshot list to the prefix `[0..cursor]`, appends the new
snapshot, and sets the cursor to `length - 1`; consequently `canRedo` is
false after the commit, and in particular after an `undo` has moved the
cursor back the next commit discards every snapshot beyond the cursor and
`canRedo` is false afterwards. -/
theorem claim1_saveState_truncates_and_appends (s : CState)
    (hatt : s.attached = true) :
    (saveState s).history =
      s.history.take (s.historyStep + 1).toNat ++ [serializeScene s.scene]
  ∧ tempFree (serializeScene s.scene)
  ∧ (saveState s).historyStep = ((saveState s).history.length : ℤ) - 1
  ∧ canRedo (saveState s) = false
  ∧ canRedo (saveState (undo s)) = false := by
  refine ⟨?_, tempFree_serializeScene s.scene, ?_, canRedo_saveState hatt, ?_⟩
  · rw [saveState_of_attached hatt]
    rfl
  · rw [saveState_of_attached hatt]
  · refine canRedo_saveState ?_
    rw [undo_attached]
    exact hatt

theorem claim1_saveState_truncates_and_appends_witness :
    demoState.attached = true ∧
    ((saveState demoState).history =
        demoState.history.take (demoState.historyStep + 1).toNat ++
          [serializeScene demoState.scene]
      ∧ tempFree (serializeScene demoState.scene)
      ∧ (saveState demoState).historyStep = ((saveState demoState).history.length : ℤ) - 1
      ∧ canRedo (saveState demoState) = false
      ∧ canRedo (saveState (undo demoState)) = false) :=
  ⟨rfl, claim1_saveState_truncates_and_appends demoState rfl⟩

/-- Claim C2: for every reachable state whose history cursor is positive,
`undo()` immediately followed by `redo()` restores the committed scene, the
snapshot list and the cursor to exactly what they were before the `undo()`. -/
theorem claim2_undo_then_redo_restores (s : CState) (hs : Reachable s)
    (hpos : 0 < s.historyStep) :
    (redo (undo s)).historyStep = s.historyStep
  ∧ (redo (undo s)).history = s.history
  ∧ serializeScene (redo (undo s)).scene = serializeScene s.scene := by
  obtain ⟨h1, h2, h3, h4, h5⟩ := reachable_histInv hs
  have hu : undo s = { s with
      scene := s.history.getD (s.historyStep - 1).toNat []
      historyStep := s.historyStep - 1 } := undo_of_guard hpos h1
  have hr : redo (undo s) = { undo s with
      scene := (undo s).history.getD ((undo s).historyStep + 1).toNat []
      historyStep := (undo s).historyStep + 1 } := by
    refine redo_of_guard ?_ ?_
    · rw [hu]
      show s.historyStep - 1 < (s.history.length : ℤ) - 1
      omega
    · rw [undo_attached]
      exact h1
  refine ⟨?_, ?_, ?_⟩
  · rw [hr, hu]
    show s.historyStep - 1 + 1 = s.historyStep
    omega
  · rw [hr, hu]
  · rw [hr, hu]
    show serializeScene (s.history.getD (s.historyStep - 1 + 1).toNat [])
        = serializeScene s.scene
    rw [show s.historyStep - 1 + 1 = s.historyStep from by omega,
      h4 (by omega), serializeScene_eq_self (tempFree_serializeScene s.scene)]

theorem claim2_undo_then_redo_restores_witness :
    Reachable (applyEv Ev.clearCanvas (applyEv Ev.clearCanvas (mountEffect initState)))
  ∧ 0 < (applyEv Ev.clearCanvas (applyEv Ev.clearCanvas (mountEffect initState))).historyStep
  ∧ ((redo (undo (applyEv Ev.clearCanvas (applyEv Ev.clearCanvas (mountEffect initState))))).historyStep
      = (applyEv Ev.clearCanvas (applyEv Ev.clearCanvas (mountEffect initState))).historyStep
    ∧ (redo (undo (applyEv Ev.clearCanvas (applyEv Ev.clearCanvas (mountEffect initState))))).history
      = (applyEv Ev.clearCanvas (applyEv Ev.clearCanvas (mountEffect initState))).history
    ∧ serializeScene (redo (undo (applyEv Ev.clearCanvas (applyEv Ev.clearCanvas (mountEffect initState))))).scene
      = serializeScene (applyEv Ev.clearCanvas (applyEv Ev.clearCanvas (mountEffect initState))).scene) :=
  ⟨Reachable.step _ Ev.clearCanvas (Reachable.step _ Ev.clearCanvas Reachable.init),
   by decide,
   claim2_undo_then_redo_restores _
     (Reachable.step _ Ev.clearCanvas (Reachable.step _ Ev.clearCanvas Reachable.init))
     (by decide)⟩

/-- Claim C3: the claim states that at component mount exactly one baseline
snapshot of the empty canvas is appended, leaving a non-empty history with
cursor 0.  In the source, the mount effect runs `setFabricCanvas(canvas);
saveState();` while the `fabricCanvas` state read by `saveState` is still
`null`, so the guard `if (!fabricCanvas) return` makes the call a no-op:
after mount the history is still empty with cursor `-1` and undo stays
disabled, refuting the claim. -/
theorem claim3_mount_appends_no_baseline :
    (mountEffect initState).history = []
  ∧ (mountEffect initState).historyStep = -1
  ∧ (mountEffect initState).attached = true
  ∧ canUndo (mountEffect initState) = false :=
  ⟨rfl, rfl, rfl, rfl⟩

/-- Claim C4: `undo()` requested at cursor 0 and `redo()` requested at
cursor `length - 1` are graceful no-ops: the whole component state —
snapshot list, cursor and scene — is unchanged. -/
theorem claim4_history_boundary_noop (s : CState) :
    (s.historyStep = 0 → undo s = s)
  ∧ (s.historyStep = (s.history.length : ℤ) - 1 → redo s = s) := by
  constructor
  · intro h0
    unfold undo
    rw [if_neg (by omega)]
  · intro hl
    unfold redo
    rw [if_neg (by omega)]

theorem claim4_history_boundary_noop_witness :
    demoState.historyStep = 0
  ∧ undo demoState = demoState
  ∧ demoState.historyStep = (demoState.history.length : ℤ) - 1
  ∧ redo demoState = demoState :=
  ⟨rfl, (claim4_history_boundary_noop demoState).1 rfl, by decide,
    (claim4_history_boundary_noop demoState).2 (by decide)⟩

/-- A mid-gesture state reached from mount: rectangle tool selected,
pointer-down at `(0,0)`, pointer-move to `(3,4)` — one preview object is on
the canvas and the gesture is still in progress. -/
noncomputable def midGesture : CState :=
  mouseMove ⟨3, 4⟩ (mouseDown ⟨0, 0⟩ (handleToolClick Tool.rectangle (mountEffect initState)))

/-- Claim C6 states that switching the active tool (or an external clear)
mid-gesture cancels the gesture, removes the live preview and leaves the
committed scene and history untouched.  The source's `handleToolClick` only
sets the active tool (and shows a toast): the gesture stays armed
(`isDrawing` remains true, `startPoint` survives) and the preview object
stays on the canvas; `clearCanvas` does remove the preview but also wipes
the committed scene and appends a snapshot, changing the history.  This
theorem evaluates the code at such a failing input. -/
theorem claim6_tool_switch_does_not_cancel :
    midGesture.isDrawing = true
  ∧ countTemp midGesture.scene = 1
  ∧ (handleToolClick Tool.select midGesture).isDrawing = true
  ∧ (handleToolClick Tool.select midGesture).startPoint = some ⟨0, 0⟩
  ∧ (handleToolClick Tool.select midGesture).scene = midGesture.scene
  ∧ countTemp (handleToolClick Tool.select midGesture).scene = 1
  ∧ (clearCanvas midGesture).history.length ≠ midGesture.history.length := by
  exact ⟨rfl, by decide, rfl, rfl, rfl, by decide, by decide⟩

/-- Claim C10: with the eraser active, a finished freehand stroke is an
ordinary brush path painted `#ffffff` at the current stroke width; it is
appended to the scene — no existing object is removed or modified — and the
snapshot committed right after it still contains every previously committed
object together with the white path. -/
theorem claim10_eraser_paints_white (s : CState) (points : List Pt)
    (h1 : s.activeTool = Tool.eraser) (h2 : s.attached = true) :
    brushColor s = "#ffffff"
  ∧ (pathCreated points s).scene =
      s.scene ++
        [{ geom := ShapeGeom.path points
           style := { stroke := "#ffffff", strokeWidth := s.strokeWidth, fill := "", opacity := 1 }
           isTemp := false }]
  ∧ (∀ o ∈ s.scene, o ∈ (pathCreated points s).scene)
  ∧ (pathCreated points s).history =
      s.history.take (s.historyStep + 1).toNat ++
        [serializeScene s.scene ++
          [{ geom := ShapeGeom.path points
             style := { stroke := "#ffffff", strokeWidth := s.strokeWidth, fill := "", opacity := 1 }
             isTemp := false }]] := by
  have hb : brushColor s = "#ffffff" := by
    unfold brushColor
    rw [if_pos h1]
  have key : pathCreated points s =
      saveState
        { s with scene := s.scene ++
            [{ geom := ShapeGeom.path points
               style := { stroke := "#ffffff", strokeWidth := s.strokeWidth, fill := "", opacity := 1 }
               isTemp := false }] } := by
    unfold pathCreated
    rw [if_pos (Or.inr h1), hb]
  refine ⟨hb, ?_, ?_, ?_⟩
  · rw [key, saveState_scene]
  · intro o ho
    rw [key, saveState_scene]
    exact List.mem_append_left _ ho
  · rw [key]
    have h2X : ({ s with scene := s.scene ++
        [{ geom := ShapeGeom.path points
           style := { stroke := "#ffffff", strokeWidth := s.strokeWidth, fill := "", opacity := 1 }
           isTemp := false }] } : CState).attached = true := h2
    rw [saveState_of_attached h2X]
    show s.history.take (s.historyStep + 1).toNat ++
        [serializeScene (s.scene ++
          [{ geom := ShapeGeom.path points
             style := { stroke := "#ffffff", strokeWidth := s.strokeWidth, fill := "", opacity := 1 }
             isTemp := false }])] = _
    rw [serializeScene_concat_committed _ rfl]

/-- The post-mount state with the eraser selected. -/
def eraserState : CState :=
  handleToolClick Tool.eraser (mountEffect initState)

theorem claim10_eraser_paints_white_witness :
    eraserState.activeTool = Tool.eraser
  ∧ eraserState.attached = true
  ∧ (brushColor eraserState = "#ffffff"
    ∧ (pathCreated [⟨0, 0⟩, ⟨1, 1⟩] eraserState).scene =
        eraserState.scene ++
          [{ geom := ShapeGeom.path [⟨0, 0⟩, ⟨1, 1⟩]
             style := { stroke := "#ffffff", strokeWidth := eraserState.strokeWidth, fill := "", opacity := 1 }
             isTemp := false }]
    ∧ (∀ o ∈ eraserState.scene, o ∈ (pathCreated [⟨0, 0⟩, ⟨1, 1⟩] eraserState).scene)
    ∧ (pathCreated [⟨0, 0⟩, ⟨1, 1⟩] eraserState).history =
        eraserState.history.take (eraserState.historyStep + 1).toNat ++
          [serializeScene eraserState.scene ++
            [{ geom := ShapeGeom.path [⟨0, 0⟩, ⟨1, 1⟩]
               style := { stroke := "#ffffff", strokeWidth := eraserState.strokeWidth, fill := "", opacity := 1 }
               isTemp := false }]]) :=
  ⟨rfl, rfl, claim10_eraser_paints_white eraserState [⟨0, 0⟩, ⟨1, 1⟩] rfl rfl⟩

/-- Modelled from the spec: the circle placement §4.2 describes — the
bounding box of the produced circle spans from the anchor `a` toward the
pointer `p` (its top-left corner at the componentwise minimum of `a` and
`p`), and the circle's edge passes through `p` (the distance from the
circle's center `(left + radius, top + radius)` to `p` equals the radius). -/
def specCirclePlacement (a p : Pt) (g : ShapeGeom) : Prop :=
  match g with
  | ShapeGeom.circle left top radius =>
      left = ((min a.x p.x : ℚ) : ℝ) ∧ top = ((min a.y p.y : ℚ) : ℝ) ∧
      Real.sqrt (((p.x : ℝ) - (left + radius)) ^ 2 + ((p.y : ℝ) - (top + radius)) ^ 2)
        = radius
  | _ => False

lemma sqrt_hundred : Real.sqrt 100 = 10 := by
  rw [show (100 : ℝ) = 10 ^ 2 by norm_num]
  exact Real.sqrt_sq (by norm_num)

lemma circleRadius_cex : circleRadius ⟨0, 0⟩ ⟨6, 8⟩ = 5 := by
  show Real.sqrt ((((6 : ℚ) : ℝ) - ((0 : ℚ) : ℝ)) ^ 2 + (((8 : ℚ) : ℝ) - ((0 : ℚ) : ℝ)) ^ 2) / 2 = 5
  have harg : (((6 : ℚ) : ℝ) - ((0 : ℚ) : ℝ)) ^ 2 + (((8 : ℚ) : ℝ) - ((0 : ℚ) : ℝ)) ^ 2 = 100 := by
    push_cast
    norm_num
  rw [harg, sqrt_hundred]
  norm_num

/-- Claim C7 states the circle spans from the anchor toward the pointer with
its edge passing near the pointer.  At anchor `(0,0)` and pointer `(6,8)`
the source produces the circle `left = -5, top = -5, radius = 5`: it is
centered on the anchor (bounding box `[-5,5] × [-5,5]`), does not span from
`(0,0)` toward `(6,8)`, and its edge passes through the midpoint `(3,4)`,
not near `(6,8)` — the pointer sits at distance 10 from the center, twice
the radius. -/
theorem claim7_circle_not_spec_positioned :
    circleGeom ⟨0, 0⟩ ⟨6, 8⟩ = ShapeGeom.circle (-5) (-5) 5
  ∧ ¬ specCirclePlacement ⟨0, 0⟩ ⟨6, 8⟩ (circleGeom ⟨0, 0⟩ ⟨6, 8⟩) := by
  have hg : circleGeom ⟨0, 0⟩ ⟨6, 8⟩ = ShapeGeom.circle (-5) (-5) 5 := by
    show ShapeGeom.circle (((0 : ℚ) : ℝ) - circleRadius ⟨0, 0⟩ ⟨6, 8⟩)
        (((0 : ℚ) : ℝ) - circleRadius ⟨0, 0⟩ ⟨6, 8⟩) (circleRadius ⟨0, 0⟩ ⟨6, 8⟩)
        = ShapeGeom.circle (-5) (-5) 5
    rw [circleRadius_cex]
    have h0 : ((0 : ℚ) : ℝ) - 5 = -5 := by
      push_cast
      ring
    rw [h0]
  refine ⟨hg, ?_⟩
  intro hspec
  rw [hg] at hspec
  have hleft : (-5 : ℝ) = ((min (0 : ℚ) 6 : ℚ) : ℝ) := hspec.1
  have hmin : ((min (0 : ℚ) 6 : ℚ) : ℝ) = 0 := by
    rw [min_eq_left (by norm_num : (0 : ℚ) ≤ 6)]
    exact Rat.cast_zero
  rw [hmin] at hleft
  norm_num at hleft

/-- Claim C7, amended to the source's behaviour: the circle's radius is half
the Euclidean distance from the anchor `a` to the pointer `p`, but the
circle is centered on `a` (`left = a.x - radius`, `top = a.y - radius`), so
its bounding box is centered on the anchor rather than spanning from `a`
toward `p`, and the circle's edge passes through the midpoint of the
segment `a`–`p` rather than near `p`. -/
theorem claim7_circle_centered_on_anchor (a p : Pt) :
    circleRadius a p = euclideanDist a p / 2
  ∧ circleGeom a p =
      ShapeGeom.circle ((a.x : ℝ) - euclideanDist a p / 2)
        ((a.y : ℝ) - euclideanDist a p / 2) (euclideanDist a p / 2)
  ∧ ((a.x : ℝ) - circleRadius a p) + circleRadius a p = (a.x : ℝ)
  ∧ ((a.y : ℝ) - circleRadius a p) + circleRadius a p = (a.y : ℝ)
  ∧ euclideanDist a ⟨(a.x + p.x) / 2, (a.y + p.y) / 2⟩ = circleRadius a p := by
  have h1 : circleRadius a p = euclideanDist a p / 2 := rfl
  refine ⟨h1, ?_, by ring, by ring, ?_⟩
  · rw [show circleGeom a p = ShapeGeom.circle ((a.x : ℝ) - circleRadius a p)
      ((a.y : ℝ) - circleRadius a p) (circleRadius a p) from rfl, h1]
  · show Real.sqrt (((((a.x + p.x) / 2 : ℚ) : ℝ) - (a.x : ℝ)) ^ 2 +
        ((((a.y + p.y) / 2 : ℚ) : ℝ) - (a.y : ℝ)) ^ 2)
      = Real.sqrt (((p.x : ℝ) - (a.x : ℝ)) ^ 2 + ((p.y : ℝ) - (a.y : ℝ)) ^ 2) / 2
    have harg : ((((a.x + p.x) / 2 : ℚ) : ℝ) - (a.x : ℝ)) ^ 2 +
        ((((a.y + p.y) / 2 : ℚ) : ℝ) - (a.y : ℝ)) ^ 2
        = (((p.x : ℝ) - (a.x : ℝ)) ^ 2 + ((p.y : ℝ) - (a.y : ℝ)) ^ 2) / 4 := by
      push_cast
      ring
    have h4 : Real.sqrt 4 = 2 := by
      rw [show (4 : ℝ) = 2 ^ 2 by norm_num]
      exact Real.sqrt_sq (by norm_num)
    rw [harg, Real.sqrt_div (by positivity) 4, h4]

/-- Modelled from the spec: the triangle §4.2/C8 describe — apex at the
horizontal midpoint of the TOP edge of the bounding box of `a` and `p`,
base corners at the two BOTTOM corners of that box, vertices listed in the
same order the source builds them (apex, pointer-side corner, anchor-side
corner). -/
def specTrianglePoints (a p : Pt) : List Pt :=
  [⟨(min a.x p.x + max a.x p.x) / 2, min a.y p.y⟩,
   ⟨max a.x p.x, max a.y p.y⟩,
   ⟨min a.x p.x, max a.y p.y⟩]

/-- Claim C8 states the apex sits on the top edge of the bounding box and
the base on its bottom corners regardless of where `p` lies relative to
`a`.  With anchor `(0,0)` and pointer `(10,-10)` (pointer above the anchor)
the source produces apex `(5,0)` — the midpoint of the BOTTOM edge of the
box `[0,10] × [-10,0]` — and base corners on the TOP edge, the inverted
triangle, refuting the claim. -/
theorem claim8_triangle_inverted_when_pointer_above :
    trianglePoints ⟨0, 0⟩ ⟨10, -10⟩ = [⟨5, 0⟩, ⟨10, -10⟩, ⟨0, -10⟩]
  ∧ specTrianglePoints ⟨0, 0⟩ ⟨10, -10⟩ = [⟨5, -10⟩, ⟨10, 0⟩, ⟨0, 0⟩]
  ∧ trianglePoints ⟨0, 0⟩ ⟨10, -10⟩ ≠ specTrianglePoints ⟨0, 0⟩ ⟨10, -10⟩ := by
  have hc1 : trianglePoints ⟨0, 0⟩ ⟨10, -10⟩ = [⟨5, 0⟩, ⟨10, -10⟩, ⟨0, -10⟩] := by
    norm_num [trianglePoints]
  have hc2 : specTrianglePoints ⟨0, 0⟩ ⟨10, -10⟩ = [⟨5, -10⟩, ⟨10, 0⟩, ⟨0, 0⟩] := by
    norm_num [specTrianglePoints, min_def, max_def]
  refine ⟨hc1, hc2, ?_⟩
  rw [hc1, hc2]
  intro h
  norm_num at h

/-- Claim C8, amended to the source's behaviour: the three vertices are
`((a.x + p.x)/2, a.y)`, `(p.x, p.y)` and `(a.x, p.y)` — the apex is always
at the horizontal midpoint of the box at the ANCHOR's y-coordinate and the
base at the POINTER's y-coordinate, so the spec's top-edge/bottom-corner
description holds exactly when `p` is (weakly) below and to the right of
`a`, and the triangle is inverted when `p` is above `a`. -/
theorem claim8_triangle_from_anchor_and_pointer (a p : Pt) :
    trianglePoints a p = [⟨(a.x + p.x) / 2, a.y⟩, ⟨p.x, p.y⟩, ⟨a.x, p.y⟩]
  ∧ (a.x + p.x) / 2 = (min a.x p.x + max a.x p.x) / 2
  ∧ (a.x ≤ p.x → a.y ≤ p.y → trianglePoints a p = specTrianglePoints a p) := by
  have e1 : (⟨a.x + (p.x - a.x) / 2, a.y⟩ : Pt) = ⟨(a.x + p.x) / 2, a.y⟩ := by
    congr 1
    ring
  have e2 : (⟨a.x + (p.x - a.x), a.y + (p.y - a.y)⟩ : Pt) = ⟨p.x, p.y⟩ := by
    congr 1 <;> ring
  have e3 : (⟨a.x, a.y + (p.y - a.y)⟩ : Pt) = ⟨a.x, p.y⟩ := by
    congr 1
    ring
  refine ⟨?_, ?_, ?_⟩
  · show [(⟨a.x + (p.x - a.x) / 2, a.y⟩ : Pt), ⟨a.x + (p.x - a.x), a.y + (p.y - a.y)⟩,
      ⟨a.x, a.y + (p.y - a.y)⟩] = _
    rw [e1, e2, e3]
  · rw [min_add_max]
  · intro hx hy
    show [(⟨a.x + (p.x - a.x) / 2, a.y⟩ : Pt), ⟨a.x + (p.x - a.x), a.y + (p.y - a.y)⟩,
        ⟨a.x, a.y + (p.y - a.y)⟩]
      = [⟨(min a.x p.x + max a.x p.x) / 2, min a.y p.y⟩,
         ⟨max a.x p.x, max a.y p.y⟩, ⟨min a.x p.x, max a.y p.y⟩]
    rw [min_eq_left hx, max_eq_right hx, min_eq_left hy, max_eq_right hy, e1, e2, e3]

theorem claim8_triangle_from_anchor_and_pointer_witness :
    (⟨0, 0⟩ : Pt).x ≤ (⟨1, 1⟩ : Pt).x
  ∧ (⟨0, 0⟩ : Pt).y ≤ (⟨1, 1⟩ : Pt).y
  ∧ trianglePoints ⟨0, 0⟩ ⟨1, 1⟩ = specTrianglePoints ⟨0, 0⟩ ⟨1, 1⟩ :=
  ⟨zero_le_one, zero_le_one,
    (claim8_triangle_from_anchor_and_pointer ⟨0, 0⟩ ⟨1, 1⟩).2.2 zero_le_one zero_le_one⟩

lemma serializeScene_mouseMove (p : Pt) (s : CState) :
    serializeScene (mouseMove p s).scene = serializeScene s.scene := by
  cases hd : s.isDrawing with
  | false => rw [mouseMove_not_drawing hd]
  | true =>
      cases hsp : s.startPoint with
      | none => rw [mouseMove_no_anchor hd hsp]
      | some a =>
          rw [mouseMove_drawing hd hsp]
          cases hps : previewShape s a p with
          | none =>
              show serializeScene (removeTrailingPreview s.scene) = serializeScene s.scene
              exact serializeScene_removeTrailingPreview s.scene
          | some sh =>
              show serializeScene (removeTrailingPreview s.scene ++ [sh])
                  = serializeScene s.scene
              rw [serializeScene_concat_temp _ (previewShape_isTemp hps),
                serializeScene_removeTrailingPreview]

lemma bool_tf {b : Bool} (h1 : b = true) (h2 : b = false) : False := by
  rw [h1] at h2
  exact Bool.noConfusion h2

/-- The single-preview discipline of the `mouse:move`/`mouse:up` handlers:
every object except possibly the last is committed, previews only exist
while a gesture is in progress, and an armed gesture belongs to a shape
tool (that is, no tool switch happened mid-gesture). -/
def GoodPreview (s : CState) : Prop :=
  (∀ o ∈ s.scene.dropLast, o.isTemp = false) ∧
  (s.isDrawing = false → tempFree s.scene) ∧
  (s.isDrawing = true → isShapeTool s.activeTool = true)

lemma countTemp_le_one_of_committed_dropLast {l : List SceneObj}
    (h : ∀ o ∈ l.dropLast, o.isTemp = false) : countTemp l ≤ 1 := by
  rcases eq_or_ne l [] with rfl | hne
  · simp [countTemp]
  · have hdec := List.dropLast_append_getLast hne
    have h0 : countTemp l.dropLast = 0 := by
      unfold countTemp
      rw [List.countP_eq_zero]
      intro o ho
      simp [h o ho]
    have hle : countTemp [l.getLast hne] ≤ 1 := by
      unfold countTemp
      exact le_trans (List.countP_le_length _) (by simp)
    calc countTemp l = countTemp (l.dropLast ++ [l.getLast hne]) := by rw [hdec]
      _ = countTemp l.dropLast + countTemp [l.getLast hne] := by
            unfold countTemp
            rw [List.countP_append]
      _ ≤ 0 + 1 := by
            rw [h0]
            exact Nat.add_le_add_left hle 0
      _ = 1 := by norm_num

lemma tempFree_of_parts {l : List SceneObj} (h1 : ∀ o ∈ l.dropLast, o.isTemp = false)
    {o : SceneObj} (hg : l.getLast? = some o) (ho : o.isTemp = false) : tempFree l := by
  intro x hx
  rw [← dropLast_concat_of_getLast? hg, List.mem_append] at hx
  rcases hx with hx | hx
  · exact h1 x hx
  · rw [List.mem_singleton] at hx
    rw [hx]
    exact ho

lemma removeTrailingPreview_committed {l : List SceneObj}
    (h : ∀ o ∈ l.dropLast, o.isTemp = false) :
    ∀ o ∈ removeTrailingPreview l, o.isTemp = false := by
  unfold removeTrailingPreview
  cases hg : l.getLast? with
  | none =>
      show ∀ x ∈ l, x.isTemp = false
      have hnil := eq_nil_of_getLast?_eq_none hg
      rw [hnil]
      intro x hx
      exact absurd hx (List.not_mem_nil x)
  | some o =>
      show ∀ x ∈ (if o.isTemp = true then l.dropLast else l), x.isTemp = false
      by_cases ht : o.isTemp = true
      · rw [if_pos ht]
        exact h
      · rw [if_neg ht]
        refine tempFree_of_parts h hg ?_
        revert ht
        cases o.isTemp <;> simp

lemma gp_mouseDown {s : CState} (h : GoodPreview s) (p : Pt) :
    GoodPreview (mouseDown p s) := by
  obtain ⟨hA, hB, hC⟩ := h
  unfold mouseDown
  by_cases hst : isShapeTool s.activeTool = true
  · rw [if_pos hst]
    exact ⟨hA, fun habs => Bool.noConfusion habs, fun _ => hst⟩
  · rw [if_neg hst]
    by_cases htx : s.activeTool = Tool.text
    · rw [if_pos htx]
      have hdraw : s.isDrawing = false := by
        cases hdd : s.isDrawing
        · rfl
        · have hsh := hC hdd
          rw [htx] at hsh
          simp [isShapeTool] at hsh
      have hfree : tempFree s.scene := hB hdraw
      refine ⟨?_, ?_, ?_⟩
      · intro o ho
        have ho2 : o ∈ (s.scene ++ [textObj p s.strokeColor]).dropLast := by
          rw [saveState_scene] at ho
          exact ho
        rw [List.dropLast_concat] at ho2
        exact hfree o ho2
      · intro _ o ho
        have ho2 : o ∈ s.scene ++ [textObj p s.strokeColor] := by
          rw [saveState_scene] at ho
          exact ho
        rw [List.mem_append] at ho2
        rcases ho2 with h' | h'
        · exact hfree o h'
        · rw [List.mem_singleton] at h'
          rw [h']
          rfl
      · intro habs
        rw [saveState_isDrawing] at habs
        exact (bool_tf habs hdraw).elim
    · rw [if_neg htx]
      exact ⟨hA, hB, hC⟩

lemma gp_mouseMove {s : CState} (h : GoodPreview s) (p : Pt) :
    GoodPreview (mouseMove p s) := by
  obtain ⟨hA, hB, hC⟩ := h
  cases hd : s.isDrawing with
  | false => rw [mouseMove_not_drawing hd]; exact ⟨hA, hB, hC⟩
  | true =>
      cases hsp : s.startPoint with
      | none => rw [mouseMove_no_anchor hd hsp]; exact ⟨hA, hB, hC⟩
      | some a =>
          rw [mouseMove_drawing hd hsp]
          cases hps : previewShape s a p with
          | none =>
              refine ⟨?_, ?_, fun _ => hC hd⟩
              · intro o ho
                exact removeTrailingPreview_committed hA o (List.dropLast_subset _ ho)
              · intro habs
                exact (bool_tf hd habs).elim
          | some sh =>
              refine ⟨?_, ?_, fun _ => hC hd⟩
              · show ∀ o ∈ (removeTrailingPreview s.scene ++ [sh]).dropLast, o.isTemp = false
                rw [List.dropLast_concat]
                exact removeTrailingPreview_committed hA
              · intro habs
                exact (bool_tf hd habs).elim

lemma gp_mouseUp {s : CState} (h : GoodPreview s) : GoodPreview (mouseUp s) := by
  obtain ⟨hA, hB, hC⟩ := h
  unfold mouseUp
  by_cases hd : s.isDrawing = true
  · rw [if_pos hd]
    cases hg : s.scene.getLast? with
    | none =>
        have hnil := eq_nil_of_getLast?_eq_none hg
        refine ⟨hA, ?_, fun habs => Bool.noConfusion habs⟩
        intro _ o ho
        have ho2 : o ∈ s.scene := ho
        rw [hnil] at ho2
        exact absurd ho2 (List.not_mem_nil o)
    | some o =>
        show GoodPreview (if o.isTemp = true then
          saveState { s with
            isDrawing := false
            startPoint := none
            scene := s.scene.dropLast ++ [{ o with isTemp := false }] }
          else { s with isDrawing := false, startPoint := none })
        by_cases ht : o.isTemp = true
        · rw [if_pos ht]
          refine ⟨?_, ?_, ?_⟩
          · intro x hx
            have hx2 : x ∈ (s.scene.dropLast ++ [{ o with isTemp := false }]).dropLast := by
              rw [saveState_scene] at hx
              exact hx
            rw [List.dropLast_concat] at hx2
            exact hA x hx2
          · intro _ x hx
            have hx2 : x ∈ s.scene.dropLast ++ [{ o with isTemp := false }] := by
              rw [saveState_scene] at hx
              exact hx
            rw [List.mem_append] at hx2
            rcases hx2 with h' | h'
            · exact hA x h'
            · rw [List.mem_singleton] at h'
              rw [h']
          · intro habs
            rw [saveState_isDrawing] at habs
            exact Bool.noConfusion habs
        · rw [if_neg ht]
          have hof : o.isTemp = false := by
            revert ht
            cases o.isTemp <;> simp
          exact ⟨hA, fun _ => tempFree_of_parts hA hg hof,
            fun habs => Bool.noConfusion habs⟩
  · rw [if_neg hd]
    exact ⟨hA, hB, hC⟩

lemma gp_pathCreated {s : CState} (h : GoodPreview s) (points : List Pt) :
    GoodPreview (pathCreated points s) := by
  obtain ⟨hA, hB, hC⟩ := h
  unfold pathCreated
  by_cases hbr : s.activeTool = Tool.brush ∨ s.activeTool = Tool.eraser
  · rw [if_pos hbr]
    have hdraw : s.isDrawing = false := by
      cases hdd : s.isDrawing
      · rfl
      · have hsh := hC hdd
        rcases hbr with hbr | hbr <;> rw [hbr] at hsh <;> simp [isShapeTool] at hsh
    have hfree : tempFree s.scene := hB hdraw
    refine ⟨?_, ?_, ?_⟩
    · intro o ho
      have ho2 : o ∈ (s.scene ++
          [({ geom := ShapeGeom.path points
              style := { stroke := brushColor s, strokeWidth := s.strokeWidth, fill := "", opacity := 1 }
              isTemp := false } : SceneObj)]).dropLast := by
        rw [saveState_scene] at ho
        exact ho
      rw [List.dropLast_concat] at ho2
      exact hfree o ho2
    · intro _ o ho
      have ho2 : o ∈ s.scene ++
          [({ geom := ShapeGeom.path points
              style := { stroke := brushColor s, strokeWidth := s.strokeWidth, fill := "", opacity := 1 }
              isTemp := false } : SceneObj)] := by
        rw [saveState_scene] at ho
        exact ho
      rw [List.mem_append] at ho2
      rcases ho2 with h' | h'
      · exact hfree o h'
      · rw [List.mem_singleton] at h'
        rw [h']
    · intro habs
      rw [saveState_isDrawing] at habs
      exact (bool_tf habs hdraw).elim
  · rw [if_neg hbr]
    exact ⟨hA, hB, hC⟩

/-- Claim C5 states that at most one preview object ever exists and that
each pointer-move removes the existing preview before adding its
replacement.  The removal only inspects the LAST object, and a tool switch
mid-gesture leaves the armed gesture and its preview behind, after which a
later pointer-move adds a second preview: from mount, select rectangle,
press at `(0,0)`, move to `(1,1)` (one preview), switch to text, press at
`(2,2)` (a committed text lands after the stranded preview), switch back to
rectangle, move to `(5,5)` — the canvas now holds TWO preview-tagged
objects. -/
theorem claim5_two_previews_possible :
    countTemp ((mouseMove ⟨5, 5⟩ (handleToolClick Tool.rectangle (mouseDown ⟨2, 2⟩
      (handleToolClick Tool.text (mouseMove ⟨1, 1⟩ (mouseDown ⟨0, 0⟩
        (handleToolClick Tool.rectangle (mountEffect initState)))))))).scene) = 2 := by
  rfl

/-- Claim C5, amended: the single-preview discipline holds for pointer
events provided no tool switch happens mid-gesture.  From any state in
which every non-final object is committed, previews exist only while a
gesture is armed, and an armed gesture belongs to a shape tool, the scene
holds at most one preview; each pointer event preserves that discipline;
and a pointer-move never changes the committed (non-preview) objects — it
removes the trailing preview and appends its replacement. -/
theorem claim5_single_preview_amended (s : CState) (hG : GoodPreview s) (p : Pt)
    (points : List Pt) :
    countTemp s.scene ≤ 1
  ∧ GoodPreview (mouseDown p s)
  ∧ GoodPreview (mouseMove p s)
  ∧ GoodPreview (mouseUp s)
  ∧ GoodPreview (pathCreated points s)
  ∧ countTemp (mouseMove p s).scene ≤ 1
  ∧ serializeScene (mouseMove p s).scene = serializeScene s.scene :=
  ⟨countTemp_le_one_of_committed_dropLast hG.1, gp_mouseDown hG p,
    gp_mouseMove hG p, gp_mouseUp hG, gp_pathCreated hG points,
    countTemp_le_one_of_committed_dropLast (gp_mouseMove hG p).1,
    serializeScene_mouseMove p s⟩

/-- An armed rectangle gesture on an empty canvas (anchor `(0,0)`), with one
stored snapshot. -/
def dragState : CState :=
  { attached := true
    scene := []
    activeTool := Tool.rectangle
    strokeColor := "#000000"
    fillColor := "#ffffff"
    strokeWidth := 2
    opacity := 100
    hasFill := false
    isDrawing := true
    startPoint := some ⟨0, 0⟩
    history := [[]]
    historyStep := 0 }

theorem claim5_single_preview_amended_witness :
    GoodPreview dragState
  ∧ (countTemp dragState.scene ≤ 1
    ∧ GoodPreview (mouseDown ⟨9, 9⟩ dragState)
    ∧ GoodPreview (mouseMove ⟨9, 9⟩ dragState)
    ∧ GoodPreview (mouseUp dragState)
    ∧ GoodPreview (pathCreated [⟨0, 0⟩] dragState)
    ∧ countTemp (mouseMove ⟨9, 9⟩ dragState).scene ≤ 1
    ∧ serializeScene (mouseMove ⟨9, 9⟩ dragState).scene = serializeScene dragState.scene) := by
  have hGP : GoodPreview dragState :=
    ⟨fun o ho => absurd ho (List.not_mem_nil o),
     fun habs => Bool.noConfusion habs,
     fun _ => rfl⟩
  exact ⟨hGP, claim5_single_preview_amended dragState hGP ⟨9, 9⟩ [⟨0, 0⟩]⟩

lemma mouseUp_commits_last_preview {t : CState} {sh : SceneObj}
    (hd : t.isDrawing = true) (hg : t.scene.getLast? = some sh)
    (ht : sh.isTemp = true) :
    (mouseUp t).scene.getLast? = some { sh with isTemp := false } := by
  unfold mouseUp
  rw [if_pos hd, hg]
  show ((if sh.isTemp = true then
      saveState { t with
        isDrawing := false
        startPoint := none
        scene := t.scene.dropLast ++ [{ sh with isTemp := false }] }
      else { t with isDrawing := false, startPoint := none }) : CState).scene.getLast?
    = some { sh with isTemp := false }
  rw [if_pos ht, saveState_scene]
  exact List.getLast?_concat _

/-- Claim C9 states that the stroke color, fill color, stroke width,
fill-enabled flag and opacity of a gesture's previews and committed shape
are the `StyleAttributes` captured at pointer-down.  In the source,
`mouse:down` captures only the anchor point; every `mouse:move` builds its
preview from the CURRENT style state.  Concretely: from mount select
rectangle, press at `(0,0)` while the stroke color is `#000000`, change the
stroke color to `#ff0000` mid-gesture, move to `(2,3)` and release — the
committed rectangle's stroke is `#ff0000`, not the `#000000` current at
pointer-down. -/
theorem claim9_style_reread_midgesture :
    (mouseDown ⟨0, 0⟩ (handleToolClick Tool.rectangle (mountEffect initState))).strokeColor
      = "#000000"
  ∧ ((mouseUp (mouseMove ⟨2, 3⟩ (setStrokeColor "#ff0000"
      (mouseDown ⟨0, 0⟩ (handleToolClick Tool.rectangle (mountEffect initState)))))).scene.map
        (fun o => o.style.stroke)) = ["#ff0000"]
  ∧ "#ff0000" ≠ "#000000" := by
  refine ⟨rfl, rfl, by decide⟩

lemma mouseMove_preview_last {s : CState} {a p : Pt} {sh : SceneObj}
    (h1 : s.isDrawing = true) (h2 : s.startPoint = some a)
    (hps : previewShape s a p = some sh) :
    (mouseMove p s).scene.getLast? = some sh
  ∧ (mouseUp (mouseMove p s)).scene.getLast? = some { sh with isTemp := false } := by
  have hmm : mouseMove p s =
      { s with scene := removeTrailingPreview s.scene ++ [sh] } := by
    rw [mouseMove_drawing h1 h2, hps]
  have hlast : (mouseMove p s).scene.getLast? = some sh := by
    rw [hmm]
    exact List.getLast?_concat _
  have hd2 : (mouseMove p s).isDrawing = true := by
    rw [hmm]
    exact h1
  exact ⟨hlast, mouseUp_commits_last_preview hd2 hlast (previewShape_isTemp hps)⟩

/-- Claim C9, amended to the source's behaviour, for every shape-drawing
gesture (line, rectangle, circle, triangle): `mouse:down` captures only the
anchor point, and each `mouse:move` recomputation builds its preview from
the `StyleAttributes` current at THAT recomputation — the current stroke
color, stroke width and opacity for all four tools, plus the current
fill-enabled flag and fill color for rectangle, circle and triangle (the
line tool's fill is hardcoded `''`); `mouse:up` commits the last preview by
clearing its tag, so the committed shape carries the style of the LAST
recomputation before release, not the style current at pointer-down. -/
theorem claim9_style_current_at_recomputation (s : CState) (a p : Pt)
    (h1 : s.isDrawing = true) (h2 : s.startPoint = some a) :
    (s.activeTool = Tool.line →
      (mouseMove p s).scene.getLast? =
        some { geom := ShapeGeom.line a.x a.y p.x p.y
               style := strokeOnlyStyle s
               isTemp := true }
      ∧ (mouseUp (mouseMove p s)).scene.getLast? =
        some { geom := ShapeGeom.line a.x a.y p.x p.y
               style := strokeOnlyStyle s
               isTemp := false })
  ∧ (s.activeTool = Tool.rectangle →
      (mouseMove p s).scene.getLast? =
        some { geom := ShapeGeom.rect (min a.x p.x) (min a.y p.y) (|p.x - a.x|) (|p.y - a.y|)
               style := shapeFillStyle s
               isTemp := true }
      ∧ (mouseUp (mouseMove p s)).scene.getLast? =
        some { geom := ShapeGeom.rect (min a.x p.x) (min a.y p.y) (|p.x - a.x|) (|p.y - a.y|)
               style := shapeFillStyle s
               isTemp := false })
  ∧ (s.activeTool = Tool.circle →
      (mouseMove p s).scene.getLast? =
        some { geom := circleGeom a p
               style := shapeFillStyle s
               isTemp := true }
      ∧ (mouseUp (mouseMove p s)).scene.getLast? =
        some { geom := circleGeom a p
               style := shapeFillStyle s
               isTemp := false })
  ∧ (s.activeTool = Tool.triangle →
      (mouseMove p s).scene.getLast? =
        some { geom := ShapeGeom.polygon (trianglePoints a p)
               style := shapeFillStyle s
               isTemp := true }
      ∧ (mouseUp (mouseMove p s)).scene.getLast? =
        some { geom := ShapeGeom.polygon (trianglePoints a p)
               style := shapeFillStyle s
               isTemp := false }) := by
  refine ⟨?_, ?_, ?_, ?_⟩ <;> intro htool
  · refine mouseMove_preview_last h1 h2 ?_
    unfold previewShape
    rw [htool]
  · refine mouseMove_preview_last h1 h2 ?_
    unfold previewShape
    rw [htool]
  · refine mouseMove_preview_last h1 h2 ?_
    unfold previewShape
    rw [htool]
  · refine mouseMove_preview_last h1 h2 ?_
    unfold previewShape
    rw [htool]

/-- The armed gesture of `dragState` with the line tool active instead. -/
def lineDragState : CState :=
  { dragState with activeTool := Tool.line }

theorem claim9_style_current_at_recomputation_witness :
    dragState.isDrawing = true
  ∧ dragState.startPoint = some ⟨0, 0⟩
  ∧ dragState.activeTool = Tool.rectangle
  ∧ ((mouseMove ⟨1, 2⟩ dragState).scene.getLast? =
      some { geom := ShapeGeom.rect (min (0 : ℚ) 1) (min (0 : ℚ) 2) (|(1 : ℚ) - 0|) (|(2 : ℚ) - 0|)
             style := shapeFillStyle dragState
             isTemp := true }
    ∧ (mouseUp (mouseMove ⟨1, 2⟩ dragState)).scene.getLast? =
      some { geom := ShapeGeom.rect (min (0 : ℚ) 1) (min (0 : ℚ) 2) (|(1 : ℚ) - 0|) (|(2 : ℚ) - 0|)
             style := shapeFillStyle dragState
             isTemp := false })
  ∧ lineDragState.isDrawing = true
  ∧ lineDragState.startPoint = some ⟨0, 0⟩
  ∧ lineDragState.activeTool = Tool.line
  ∧ ((mouseMove ⟨1, 2⟩ lineDragState).scene.getLast? =
      some { geom := ShapeGeom.line (0 : ℚ) 0 1 2
             style := strokeOnlyStyle lineDragState
             isTemp := true }
    ∧ (mouseUp (mouseMove ⟨1, 2⟩ lineDragState)).scene.getLast? =
      some { geom := ShapeGeom.line (0 : ℚ) 0 1 2
             style := strokeOnlyStyle lineDragState
             isTemp := false }) :=
  ⟨rfl, rfl, rfl,
    (claim9_style_current_at_recomputation dragState ⟨0, 0⟩ ⟨1, 2⟩ rfl rfl).2.1 rfl,
    rfl, rfl, rfl,
    (claim9_style_current_at_recomputation lineDragState ⟨0, 0⟩ ⟨1, 2⟩ rfl rfl).1 rfl⟩
